import Mathlib

/-!
Verification of the MCP-LITE orchestration engine (`src/api/orchestrator.js`
and the webhook handlers) against its natural-language specification.

The JavaScript source is shallowly embedded: every loop becomes a fueled
recursive function (the fuel is the source's iteration budget), external
calls (agents, GitHub API) are oracles supplied through an environment
record, and `JSON.parse` of an agent response is represented by the parse
view the orchestrator actually consumes (an `Option` of the typed record of
the fields it reads; `none` models a parse that throws).  Side effects are
collected into an explicit event trace.
-/

namespace MCPLite

/-! ### JavaScript value helpers -/

/-- JavaScript numbers as used by the orchestrator: a rational value or
`NaN` (arithmetic on `undefined`, e.g. `acc + v.score` with a missing
`score` field, produces `NaN`). -/
inductive JSNum where
  | num (q : ℚ)
  | nan
deriving DecidableEq

/-- JavaScript `+` on numbers: `NaN` (and `undefined` coerced to `NaN`)
propagates. -/
def JSNum.addJS : JSNum → JSNum → JSNum
  | JSNum.num a, JSNum.num b => JSNum.num (a + b)
  | _, _ => JSNum.nan

/-- JavaScript `x / n` for a literal count `n` (the orchestrator divides by
`verificationResults.length`, which is always 3). Any comparison or
arithmetic on `NaN` yields `NaN`. -/
def JSNum.divNat : JSNum → Nat → JSNum
  | JSNum.num a, n => if n = 0 then JSNum.nan else JSNum.num (a / (n : ℚ))
  | JSNum.nan, _ => JSNum.nan

/-- JavaScript `x < t` on numbers: comparisons against `NaN` are `false`. -/
def JSNum.ltJS : JSNum → ℚ → Bool
  | JSNum.num a, t => decide (a < t)
  | JSNum.nan, _ => false

/-- Whether `needle` is a leading run of `hay` (character-exact). -/
def listStarts : List Char → List Char → Bool
  | [], _ => true
  | _ :: _, [] => false
  | a :: as, b :: bs => (a == b) && listStarts as bs

/-- Whether `needle` occurs contiguously inside `hay`. -/
def listHasSub (needle : List Char) : List Char → Bool
  | [] => listStarts needle []
  | b :: bs => listStarts needle (b :: bs) || listHasSub needle bs

/-- JavaScript `String.prototype.includes`. -/
def jsIncludes (s needle : String) : Bool :=
  listHasSub needle.data s.data

/-! ### ResponseCorrelator: `callClaude` (orchestrator.js lines 415-467)

`callClaude` posts a comment, records its creation time `t0`, then polls the
issue's comment list up to `maxAttempts = 30` times at `pollInterval =
10000` ms, looking for the first comment authored by a recognized agent
with a creation time strictly after `t0`.  The channel is modeled as a
function from the attempt number to the (chronologically ordered) comment
list that poll observes. -/

/-- One issue comment as the correlator inspects it. -/
structure Comment where
  login : String
  userType : String
  createdAt : Nat
  body : String
deriving DecidableEq

/-- The agent-identity heuristic (orchestrator.js lines 446-449):
`c.user.login.includes('claude') || c.user.type === 'Bot' &&
(c.user.login.includes('anthropic') || c.user.login.includes('claude'))`,
with JavaScript precedence `a || (b && (c || d))`. -/
def isClaudeBot (c : Comment) : Bool :=
  jsIncludes c.login "claude" ||
    (c.userType == "Bot" && (jsIncludes c.login "anthropic" || jsIncludes c.login "claude"))

/-- The full match predicate of the `comments.find` callback: recognized
agent and created strictly after `t0`. -/
def claudeMatch (t0 : Nat) (c : Comment) : Bool :=
  isClaudeBot c && decide (t0 < c.createdAt)

/-- One poll: the first comment in list order satisfying `claudeMatch`. -/
def claudeFind (t0 : Nat) (comments : List Comment) : Option Comment :=
  comments.find? (claudeMatch t0)

/-- Polling interval in milliseconds (orchestrator.js line 429). -/
def pollIntervalMs : Nat := 10000

/-- Attempt budget (orchestrator.js line 428). -/
def maxPollAttempts : Nat := 30

/-- The polling loop of `callClaude`.  Returns the matched body (or `none`
when the budget is exhausted, modeling the thrown timeout `Error` — the
spec's `ResponseTimeoutError`) together with the number of polls performed.
Totality of this definition is the "never hangs" half of the contract. -/
def callClaudePoll (t0 : Nat) (channel : Nat → List Comment) :
    Nat → Nat → Option String × Nat
  | _, 0 => (none, 0)
  | attempt, fuel + 1 =>
    match claudeFind t0 (channel attempt) with
    | some c => (some c.body, 1)
    | none =>
      let rest := callClaudePoll t0 channel (attempt + 1) fuel
      (rest.1, rest.2 + 1)

/-- The full `callClaude` polling call after the outbound post at time `t0`. -/
def callClaude (t0 : Nat) (channel : Nat → List Comment) : Option String × Nat :=
  callClaudePoll t0 channel 0 maxPollAttempts

lemma callClaudePoll_found {t0 : Nat} {channel : Nat → List Comment} {attempt : Nat}
    {c : Comment} (h : claudeFind t0 (channel attempt) = some c) (fuel : Nat) :
    callClaudePoll t0 channel attempt (fuel + 1) = (some c.body, 1) := by
  simp [callClaudePoll, h]

lemma callClaudePoll_none {t0 : Nat} {channel : Nat → List Comment}
    (h : ∀ a, claudeFind t0 (channel a) = none) :
    ∀ fuel attempt, callClaudePoll t0 channel attempt fuel = (none, fuel) := by
  intro fuel
  induction fuel with
  | zero => intro attempt; rfl
  | succ n ih =>
    intro attempt
    simp [callClaudePoll, h attempt, ih (attempt + 1)]

/-- C3: after posting at time `t0`, `callClaude` returns the body of the
first chronologically-ordered comment that is recognized as an automated
agent's and is strictly newer than `t0`; on a channel holding one
non-matching older message followed by one matching message it returns the
matching body on the first poll and ignores the earlier message. -/
theorem C3_correlator_first_match (t0 : Nat) (old m : Comment)
    (hold : claudeMatch t0 old = false) (hm : claudeMatch t0 m = true) :
    callClaude t0 (fun _ => [old, m]) = (some m.body, 1) := by
  have hfind : claudeFind t0 [old, m] = some m := by
    simp [claudeFind, List.find?, hold, hm]
  show callClaudePoll t0 (fun _ => [old, m]) 0 (29 + 1) = (some m.body, 1)
  exact callClaudePoll_found hfind 29

/-- Witness for C3 at a concrete channel: an old human comment at time 3
and an agent reply at time 12 with `t0 = 10`. -/
theorem C3_correlator_first_match_witness :
    callClaude 10
      (fun _ =>
        [{ login := "some-human", userType := "User", createdAt := 3, body := "hello" },
         { login := "claude-bot", userType := "Bot", createdAt := 12, body := "the answer" }]) =
      (some "the answer", 1) :=
  C3_correlator_first_match 10
    { login := "some-human", userType := "User", createdAt := 3, body := "hello" }
    { login := "claude-bot", userType := "Bot", createdAt := 12, body := "the answer" }
    (by decide) (by decide)

/-- C4: when no qualifying agent comment ever appears, `callClaude` polls
exactly its attempt budget (30 attempts, 10000 ms apart, i.e. 300 s total)
and then fails — `none` models the thrown timeout `Error` (the spec's
`ResponseTimeoutError`); no body is ever returned. -/
theorem C4_correlator_timeout (t0 : Nat) (channel : Nat → List Comment)
    (h : ∀ a, claudeFind t0 (channel a) = none) :
    callClaude t0 channel = (none, 30) ∧
      maxPollAttempts = 30 ∧ maxPollAttempts * pollIntervalMs / 1000 = 300 := by
  refine ⟨?_, rfl, rfl⟩
  exact callClaudePoll_none h maxPollAttempts 0

/-- Witness for C4 on the empty channel. -/
theorem C4_correlator_timeout_witness :
    callClaude 0 (fun _ => []) = (none, 30) :=
  (C4_correlator_timeout 0 (fun _ => []) (fun _ => rfl)).1

/-! ### Parsed verifier responses

The orchestrator reads a verifier's reply with `JSON.parse(...)` and then
accesses only the fields `score`, `issues`, `improvements` and `fixes`.
A reply is therefore embedded as the `Option` of the record of those field
views (`none` = `JSON.parse` throws); an `Option` field is `none` when the
parsed object lacks that key (JavaScript `undefined`). -/

/-- One entry of a research verification's `improvements` array
(orchestrator.js lines 168-173): the code reads `improvement.researcher`
and `improvement.suggestion`. -/
structure Improvement where
  researcher : Option String
  suggestion : Option String
deriving DecidableEq

/-- The field views of a parsed verifier reply. -/
structure VerifierOutput where
  score : Option JSNum
  issues : Option (List String)
  improvements : Option (List Improvement)
  fixes : Option (List String)
deriving DecidableEq

/-- JavaScript `result.score || 0`: a missing, `NaN` or zero score is
replaced by `0` (orchestrator.js lines 100, 162, 242). -/
def scoreOrZero : Option JSNum → ℚ
  | some (JSNum.num q) => q
  | _ => 0

/-- The quality value after one verification step including the
`try { ... } catch (e) { quality = 0 }` around `JSON.parse`
(orchestrator.js lines 98-103): an unparsable reply degrades to 0. -/
def scoreView (r : Option VerifierOutput) : ℚ :=
  match r with
  | some v => scoreOrZero v.score
  | none => 0

/-! ### QualityGate: the phase-1 loop shape (orchestrator.js lines 56-110)

`while (quality < threshold && iteration < maxIterations) { candidate =
produce(iteration, feedback); save; quality = verify(candidate); iteration++ }`.
Phase 1 instantiates it with threshold 95 and budget 5.  The feedback of a
produce call is the previous quality score when `iteration > 0` (the prompt
interpolates `Previous plan had quality score X%`, line 67) and nothing on
the first call. -/

/-- One loop pass as recorded for audit: the iteration index, the feedback
given to `produce`, the produced candidate, and its verified quality. -/
structure IterationRec (α : Type) where
  iteration : Nat
  feedback : Option ℚ
  candidate : α
  quality : ℚ
deriving DecidableEq

/-- The bounded produce/verify loop.  `fuel` is `maxIterations - iteration`;
the top-level call passes `fuel = maxIterations`, `iteration = 0`,
`quality = 0` and the initial (empty) candidate. -/
def qualityGate {α : Type} (produce : Nat → Option ℚ → α)
    (verify : Nat → α → Option VerifierOutput) (threshold : ℚ) :
    Nat → Nat → ℚ → α → α × List (IterationRec α)
  | 0, _, _, current => (current, [])
  | fuel + 1, iteration, quality, current =>
    if quality < threshold then
      let fb := if iteration > 0 then some quality else none
      let c := produce iteration fb
      let q := scoreView (verify iteration c)
      let rest := qualityGate produce verify threshold fuel (iteration + 1) q c
      (rest.1, ⟨iteration, fb, c, q⟩ :: rest.2)
    else
      (current, [])

/-- The agent oracles phase 1 consumes: the plan text produced for a given
iteration and feedback, and the parse view of the verification of a given
plan text at a given iteration. -/
structure Phase1Env where
  plan : Nat → Option ℚ → String
  verify : Nat → String → Option VerifierOutput

/-- The function `phase1_createPlan` (orchestrator.js lines 56-110): the quality gate at
threshold 95 with budget 5, starting from quality 0, iteration 0 and the
empty plan text.  (The source finally applies `JSON.parse` to the returned
text; the claims are about which candidate is returned.) -/
def phase1_createPlan (env : Phase1Env) : String × List (IterationRec String) :=
  qualityGate env.plan env.verify 95 5 0 0 ""

section QualityGateSpec

variable {α : Type} (P : Nat → Option ℚ → α) (V : Nat → α → Option VerifierOutput) (T : ℚ)

lemma qualityGate_entry {fuel i : Nat} {q : ℚ} {c : α}
    (h : (qualityGate P V T fuel i q c).2 ≠ []) : q < T := by
  cases fuel with
  | zero => simp [qualityGate] at h
  | succ n =>
    by_contra hq
    simp [qualityGate, hq] at h

lemma qualityGate_progress {fuel i : Nat} {q : ℚ} {c : α}
    (hq : q < T) (hf : 0 < fuel) : (qualityGate P V T fuel i q c).2 ≠ [] := by
  cases fuel with
  | zero => exact absurd hf (by simp)
  | succ n => simp [qualityGate, hq]

lemma qualityGate_length : ∀ (fuel i : Nat) (q : ℚ) (c : α),
    (qualityGate P V T fuel i q c).2.length ≤ fuel := by
  intro fuel
  induction fuel with
  | zero => intro i q c; simp [qualityGate]
  | succ n ih =>
    intro i q c
    by_cases hq : q < T
    · simpa [qualityGate, hq] using ih (i + 1) _ _
    · simp [qualityGate, hq]

lemma qualityGate_iterations : ∀ (fuel i : Nat) (q : ℚ) (c : α),
    (qualityGate P V T fuel i q c).2.map IterationRec.iteration =
      List.range' i (qualityGate P V T fuel i q c).2.length := by
  intro fuel
  induction fuel with
  | zero => intro i q c; simp [qualityGate]
  | succ n ih =>
    intro i q c
    by_cases hq : q < T
    · simp [qualityGate, hq, ih (i + 1), List.range'_succ]
    · simp [qualityGate, hq]

lemma qualityGate_result : ∀ (fuel i : Nat) (q : ℚ) (c : α),
    (qualityGate P V T fuel i q c).1 =
      ((qualityGate P V T fuel i q c).2.getLast?).elim c IterationRec.candidate := by
  intro fuel
  induction fuel with
  | zero => intro i q c; simp [qualityGate]
  | succ n ih =>
    intro i q c
    by_cases hq : q < T
    · simp only [qualityGate, if_pos hq]
      have h := ih (i + 1) (scoreView (V i (P i (if i > 0 then some q else none))))
        (P i (if i > 0 then some q else none))
      cases hrest : (qualityGate P V T n (i + 1)
          (scoreView (V i (P i (if i > 0 then some q else none))))
          (P i (if i > 0 then some q else none))).2 with
      | nil => rw [hrest] at h; simp at h; simp [hrest, h]
      | cons r rs =>
        rw [hrest] at h
        simp only [List.getLast?_cons_cons]
        rw [h]
        cases hlast : (r :: rs).getLast? with
        | none => simp [List.getLast?_eq_none_iff] at hlast
        | some x => simp
    · simp [qualityGate, hq]

lemma qualityGate_below_before_last : ∀ (fuel i : Nat) (q : ℚ) (c : α),
    ∀ r ∈ (qualityGate P V T fuel i q c).2.dropLast, r.quality < T := by
  intro fuel
  induction fuel with
  | zero => intro i q c; simp [qualityGate]
  | succ n ih =>
    intro i q c
    by_cases hq : q < T
    · simp only [qualityGate, if_pos hq]
      cases hrest : (qualityGate P V T n (i + 1)
          (scoreView (V i (P i (if i > 0 then some q else none))))
          (P i (if i > 0 then some q else none))).2 with
      | nil => simp
      | cons r0 rs =>
        intro r hr
        rw [List.dropLast_cons₂] at hr
        rcases List.mem_cons.1 hr with hr | hr
        · have hq2 : scoreView (V i (P i (if i > 0 then some q else none))) < T := by
            refine @qualityGate_entry _ P V T n (i + 1)
              (scoreView (V i (P i (if i > 0 then some q else none))))
              (P i (if i > 0 then some q else none)) ?_
            rw [hrest]; simp
          rw [hr]
          simpa using hq2
        · exact ih (i + 1) _ _ r (by rw [hrest]; exact hr)
    · simp [qualityGate, hq]

lemma qualityGate_stop_reason : ∀ (fuel i : Nat) (q : ℚ) (c : α),
    ∀ r, (qualityGate P V T fuel i q c).2.getLast? = some r →
      ¬ r.quality < T ∨ (qualityGate P V T fuel i q c).2.length = fuel := by
  intro fuel
  induction fuel with
  | zero => intro i q c r hr; simp [qualityGate] at hr
  | succ n ih =>
    intro i q c
    by_cases hq : q < T
    · simp only [qualityGate, if_pos hq]
      cases hrest : (qualityGate P V T n (i + 1)
          (scoreView (V i (P i (if i > 0 then some q else none))))
          (P i (if i > 0 then some q else none))).2 with
      | nil =>
        intro r hr
        simp at hr
        cases n with
        | zero => right; simp
        | succ m =>
          by_cases hq2 : scoreView (V i (P i (if i > 0 then some q else none))) < T
          · exact absurd hrest (qualityGate_progress P V T hq2 (Nat.succ_pos m))
          · left; rw [← hr]; simpa using hq2
      | cons r0 rs =>
        intro r hr
        rw [List.getLast?_cons_cons] at hr
        have h := ih (i + 1) _ _ r (by rw [hrest]; exact hr)
        rcases h with h | h
        · exact Or.inl h
        · right
          rw [hrest] at h
          simp only [List.length_cons] at h ⊢
          omega
    · simp [qualityGate, hq]

end QualityGateSpec

/-- A concrete phase-1 environment whose verifier scores the successive
plan candidates 40, 60, 80, 96. -/
def scoresC2 : Nat → ℚ
  | 0 => 40
  | 1 => 60
  | 2 => 80
  | 3 => 96
  | _ => 0

/-- The plan producer answers `plan-i` at iteration `i`; the verifier
returns `{"score": scoresC2 i, "issues": []}`. -/
def envC2 : Phase1Env where
  plan := fun i _ => "plan-" ++ toString i
  verify := fun i _ => some ⟨some (JSNum.num (scoresC2 i)), some [], none, none⟩

/-- C2: for every budget `N > 0` and threshold `T > 0`, the QualityGate
loop performs at most `N` produce/verify cycles, produces at least one
candidate, returns the last produced candidate, stops there either because
its verified score reached `T` or because the budget is exhausted, and every
earlier candidate scored strictly below `T` (so a returned above-threshold
candidate is the first one).  Concretely, the phase-1 loop (threshold 95,
budget 5) on the score sequence [40, 60, 80, 96] performs exactly 4 produce
calls and returns the 4th candidate. -/
theorem C2_quality_gate_bounded_loop {α : Type} (produce : Nat → Option ℚ → α)
    (verify : Nat → α → Option VerifierOutput) (T : ℚ) (N : Nat) (d : α)
    (hT : 0 < T) (hN : 0 < N) :
    ((qualityGate produce verify T N 0 0 d).2.length ≤ N ∧
     (qualityGate produce verify T N 0 0 d).2 ≠ [] ∧
     (∀ r, (qualityGate produce verify T N 0 0 d).2.getLast? = some r →
        (qualityGate produce verify T N 0 0 d).1 = r.candidate ∧
          (T ≤ r.quality ∨ (qualityGate produce verify T N 0 0 d).2.length = N)) ∧
     (∀ r ∈ (qualityGate produce verify T N 0 0 d).2.dropLast, r.quality < T)) ∧
    phase1_createPlan envC2 =
      ("plan-3",
       [⟨0, none, "plan-0", 40⟩, ⟨1, some 40, "plan-1", 60⟩,
        ⟨2, some 60, "plan-2", 80⟩, ⟨3, some 80, "plan-3", 96⟩]) := by
  refine ⟨⟨qualityGate_length produce verify T N 0 0 d,
           qualityGate_progress produce verify T hT hN,
           ?_,
           qualityGate_below_before_last produce verify T N 0 0 d⟩,
         by decide⟩
  intro r hr
  constructor
  · rw [qualityGate_result produce verify T N 0 0 d, hr]; rfl
  · rcases qualityGate_stop_reason produce verify T N 0 0 d r hr with h | h
    · exact Or.inl (le_of_not_lt h)
    · exact Or.inr h

/-- Witness for C2 at the concrete phase-1 instantiation (threshold 95,
budget 5, scores [40, 60, 80, 96]). -/
theorem C2_quality_gate_bounded_loop_witness :
    (qualityGate envC2.plan envC2.verify 95 5 0 0 "").2.length ≤ 5 ∧
      (qualityGate envC2.plan envC2.verify 95 5 0 0 "").2 ≠ [] :=
  ⟨(C2_quality_gate_bounded_loop envC2.plan envC2.verify 95 5 ""
      (by norm_num) (by norm_num)).1.1,
   (C2_quality_gate_bounded_loop envC2.plan envC2.verify 95 5 ""
      (by norm_num) (by norm_num)).1.2.1⟩

/-! ### Parsed JSON payloads and effect traces -/

/-- Parsed JSON values as the orchestrator stores them.  Research payloads
are held opaquely and never inspected by the orchestrator, so composite
values (arrays/objects) are kept as their source text via `jraw`. -/
inductive Json where
  | jnull
  | jbool (b : Bool)
  | jnum (q : ℚ)
  | jstr (s : String)
  | jraw (s : String)
deriving DecidableEq

/-- The semantic content of an agent prompt (the literal template text is
abstracted to the data interpolated into it). -/
inductive Prompt where
  | createPlan (requirements : String) (iteration : Nat) (feedback : Option ℚ)
  | verifyPlan (planText : String)
  | createDevPlan
  | verifyDevPlan (planText : String)
  | improveDevPlan (issues : Option (List String)) (planText : String)
  | researchAs (researcher : String) (planText : String)
  | verifyResearch (iteration : Nat)
  | implementComponent (developer : String) (component : String)
  | applyFixes (fixes : List String)
  | verifyCode (verifier : String) (branch : String)
deriving DecidableEq

/-- Externally observable actions of the orchestrator: agent calls (plain
and branch-scoped), ContentStore writes, workflow dispatches/waits, branch
creation, commit triggers, and status notifications. -/
inductive Ev where
  | ask (p : Prompt)
  | askWithFiles (p : Prompt) (branch : String)
  | save (path : String) (content : String)
  | notify (message : String)
  | dispatchResearch (researchers : List String) (improvementMode : Bool)
  | dispatchDevelopment (componentNames : List String) (developers : List String)
  | waitWorkflow (name : String)
  | newBranch (name : String)
  | commit (message : String) (branch : String)
deriving DecidableEq

/-- Whether an event is a ContentStore file write. -/
def Ev.isSave : Ev → Bool
  | Ev.save _ _ => true
  | _ => false

/-- Whether an event is a commit trigger. -/
def Ev.isCommit : Ev → Bool
  | Ev.commit _ _ => true
  | _ => false

/-- The events of one phase-1 loop pass, in source order: the produce call,
the save of `plans/iteration-<i>.json` with the candidate text (before any
verification, so the persisted artifact holds no score), then the verify
call (orchestrator.js lines 80-96). -/
def phase1PassEvents (requirements : String) (r : IterationRec String) : List Ev :=
  let i := r.iteration
  [Ev.ask (Prompt.createPlan requirements r.iteration r.feedback),
   Ev.save (s!"plans/iteration-{i}.json") r.candidate,
   Ev.ask (Prompt.verifyPlan r.candidate)]

/-- The full phase-1 effect trace derived from its iteration records. -/
def phase1Trace (requirements : String) (recs : List (IterationRec String)) : List Ev :=
  recs.flatMap (phase1PassEvents requirements)

/-! ### Phase 3: development plan (orchestrator.js lines 209-260)

The initial dev plan is produced once before the loop.  Each loop pass
verifies the current plan text; inside the same `try` block, a parsed
result with score below 95 triggers an improve call whose prompt
interpolates `result.issues` and the current plan — so the improve call
happens even on the final pass, and is skipped when the parse throws
(the catch only resets the quality to 0). -/

/-- Agent oracles of phase 3: the initial dev-plan response, the parse view
of each verification, and the improved plan text returned for a given
iteration, issues list and current plan. -/
structure Phase3Env where
  initialDevPlan : String
  verify : Nat → String → Option VerifierOutput
  improve : Nat → Option (List String) → String → String

/-- One phase-3 loop pass: the plan text under verification, the parse view
obtained, the quality after the pass, and (when taken) the improved text. -/
structure P3Rec where
  iteration : Nat
  planBefore : String
  verification : Option VerifierOutput
  qualityAfter : ℚ
  improvedTo : Option String
deriving DecidableEq

/-- The phase-3 quality loop (`while (quality < 95 && iteration < 3)`). -/
def phase3Loop (env : Phase3Env) : Nat → Nat → ℚ → String → String × List P3Rec
  | 0, _, _, current => (current, [])
  | fuel + 1, iteration, quality, current =>
    if quality < 95 then
      match env.verify iteration current with
      | some v =>
        let q := scoreOrZero v.score
        if q < 95 then
          let c2 := env.improve iteration v.issues current
          let rest := phase3Loop env fuel (iteration + 1) q c2
          (rest.1, ⟨iteration, current, some v, q, some c2⟩ :: rest.2)
        else
          let rest := phase3Loop env fuel (iteration + 1) q current
          (rest.1, ⟨iteration, current, some v, q, none⟩ :: rest.2)
      | none =>
        let rest := phase3Loop env fuel (iteration + 1) 0 current
        (rest.1, ⟨iteration, current, none, 0, none⟩ :: rest.2)
    else
      (current, [])

/-- The function `phase3_createDevPlan`: budget 3, starting from the initially produced
plan text.  (The source finally applies `JSON.parse` to the returned
text.) -/
def phase3_createDevPlan (env : Phase3Env) : String × List P3Rec :=
  phase3Loop env 3 0 0 env.initialDevPlan

/-- The events of one phase-3 loop pass: the verify call and, when the
improve branch was taken, the improve call carrying the parsed issues. -/
def phase3PassEvents (r : P3Rec) : List Ev :=
  Ev.ask (Prompt.verifyDevPlan r.planBefore) ::
    (match r.improvedTo, r.verification with
     | some _, some v => [Ev.ask (Prompt.improveDevPlan v.issues r.planBefore)]
     | _, _ => [])

/-- The full phase-3 effect trace: the initial dev-plan production followed
by the per-pass events.  Phase 3 performs no ContentStore writes. -/
def phase3Trace (recs : List P3Rec) : List Ev :=
  Ev.ask Prompt.createDevPlan :: recs.flatMap phase3PassEvents

/-! ### Phase 5: verification (orchestrator.js lines 325-375)

Each pass asks three fixed verifiers in order and pushes
`JSON.parse(result)` **without** a surrounding try/catch (line 347), so an
unparsable reply throws out of the loop.  The overall quality is
`reduce((acc, v) => acc + v.score, 0) / length`: a parsed object with a
missing `score` field makes the sum — and hence the mean — `NaN`, and every
`NaN < 95` comparison is `false`. -/

/-- The three verifier identities of phase 5 (lines 332-336). -/
def verifierNames : List String :=
  ["code-quality-verifier", "security-verifier", "performance-verifier"]

/-- Agent oracle of phase 5: for each iteration and verifier index, the
parse view of that verifier's reply (`none` = `JSON.parse` throws). -/
structure Phase5Env where
  verify : Nat → Nat → Option VerifierOutput

/-- JavaScript `acc + v.score` folded over the results, starting at 0: a
missing score is `undefined`, and `number + undefined` is `NaN`. -/
def sumScores (vs : List VerifierOutput) : JSNum :=
  vs.foldl (fun acc v => JSNum.addJS acc (v.score.getD JSNum.nan)) (JSNum.num 0)

/-- The overall quality of one pass: the sum divided by
`verificationResults.length`. -/
def phase5Overall (vs : List VerifierOutput) : JSNum :=
  JSNum.divNat (sumScores vs) vs.length

/-- Sequentially parse the replies of verifier indices `i, i+1, ...`
(`count` many); the first unparsable reply throws. -/
def collectVerifs (resp : Nat → Option VerifierOutput) : Nat → Nat → Except Unit (List VerifierOutput)
  | _, 0 => Except.ok []
  | i, n + 1 =>
    match resp i with
    | none => Except.error ()
    | some v =>
      match collectVerifs resp (i + 1) n with
      | Except.ok vs => Except.ok (v :: vs)
      | Except.error e => Except.error e

/-- The agent calls of one phase-5 pass, one per verifier. -/
def phase5AskEvents (branch : String) : List Ev :=
  verifierNames.map (fun n => Ev.ask (Prompt.verifyCode n branch))

/-- The fix-application events of one phase-5 pass (lines 355-371): for each
result whose `fixes` array exists and is non-empty, a branch-scoped agent
call, then a single commit trigger for the whole pass. -/
def phase5FixEvents (branch : String) (iteration : Nat) (vs : List VerifierOutput) : List Ev :=
  (vs.flatMap (fun v =>
    match v.fixes with
    | some fs => if fs.length > 0 then [Ev.askWithFiles (Prompt.applyFixes fs) branch] else []
    | none => [])) ++
  [Ev.commit (s!"Apply verification fixes - iteration {iteration + 1}") branch]

/-- The phase-5 loop (`while (overallQuality < 95 && iteration < 5)`).
Returns the number of passes performed and the event trace, or the
propagated parse error. -/
def phase5Loop (env : Phase5Env) (branch : String) : Nat → Nat → JSNum → Except Unit (Nat × List Ev)
  | 0, _, _ => Except.ok (0, [])
  | fuel + 1, iteration, quality =>
    if JSNum.ltJS quality 95 then
      match collectVerifs (env.verify iteration) 0 3 with
      | Except.error e => Except.error e
      | Except.ok vs =>
        let q := phase5Overall vs
        let evs := phase5AskEvents branch ++
          (if JSNum.ltJS q 95 then phase5FixEvents branch iteration vs else [])
        match phase5Loop env branch fuel (iteration + 1) q with
        | Except.ok (n, rest) => Except.ok (n + 1, evs ++ rest)
        | Except.error e => Except.error e
    else
      Except.ok (0, [])

/-- The function `phase5_verification`: budget 5, starting quality 0. -/
def phase5_verification (env : Phase5Env) (branch : String) : Except Unit (Nat × List Ev) :=
  phase5Loop env branch 5 0 (JSNum.num 0)

/-! ### Phase 2: research (orchestrator.js lines 112-207)

The plan is saved, then the `research.yml` workflow is dispatched and
awaited inside a `try`; any failure there (dispatch refused, workflow
failed or timed out) drops into the sequential fallback in the `catch`.
On the delegated path the artifacts are bound with
`const researchResults = ...` (line 145).  Inside the quality loop, a
parsed verification with score < 95 and a present `improvements` array
triggers `triggerSingleResearcher` per valid entry and then re-assigns
`researchResults` (line 176) — an assignment to a `const` binding, which
throws a `TypeError` that the surrounding `catch (e)` swallows by setting
`researchQuality = 0`.  The mapping is therefore never updated. -/

/-- The plan object as phase 2 consumes it: the `researchers` field (absent
= JavaScript `undefined`, defaulted by `plan.researchers ||
['web-technology-researcher']`) and its `JSON.stringify` text. -/
structure Plan2 where
  researchers : Option (List String)
  stringified : String
deriving DecidableEq

/-- JavaScript `plan.researchers || ['web-technology-researcher']` (a present empty
array is truthy and kept). -/
def researchersOf (p : Plan2) : List String :=
  p.researchers.getD ["web-technology-researcher"]

/-- JavaScript truthiness of an optional string (the empty string is
falsy). -/
def jsTruthyS : Option String → Bool
  | some s => s != ""
  | none => false

/-- The external oracles of phase 2. -/
structure Phase2Env where
  /-- whether the `research.yml` workflow dispatch request succeeds -/
  dispatchOk : Bool
  /-- whether `waitForWorkflowCompletion('research')` returns normally -/
  waitOk : Bool
  /-- the artifact mapping returned by `collectWorkflowArtifacts` (that
  helper catches internally and never throws) -/
  collected : List (String × Json)
  /-- the mapping the re-collection at a given loop iteration would return;
  it is computed and then lost when the assignment to the `const` binding
  throws -/
  recollected : Nat → List (String × Json)
  /-- parse view of the research verification reply at a given iteration -/
  verifyResearch : Nat → Option VerifierOutput
  /-- fallback path: parse view of a researcher's direct reply (`none` =
  `JSON.parse(result)` throws out of the phase) -/
  seqResult : String → Option Json

/-- The events of `triggerSingleResearcher` (lines 722-753) for each valid
improvement entry: save the improvement task file, dispatch `research.yml`
for that single researcher with `improvement_mode: 'true'`, and await it.
Internal errors are caught and logged, so the events are modeled as
performed. -/
def improvementEvents (imps : List Improvement) : List Ev :=
  imps.flatMap (fun imp =>
    if jsTruthyS imp.researcher && jsTruthyS imp.suggestion then
      let r := imp.researcher.getD ""
      let s := imp.suggestion.getD ""
      [Ev.save (s!"improvements/{r}-improvement.md") s,
       Ev.dispatchResearch [r] true,
       Ev.waitWorkflow "research"]
    else [])

/-- One pass of the research-quality loop. -/
structure P2Rec where
  iteration : Nat
  verification : Option VerifierOutput
  qualityAfter : ℚ
deriving DecidableEq

/-- The research-quality loop (`while (quality < 95 && iteration < 3)`,
lines 151-183).  A parse failure resets the quality to 0; a below-threshold
score with a present `improvements` array runs the improvement triggers and
then hits the `const` re-assignment TypeError, which the catch also turns
into quality 0. -/
def phase2QLoop (env : Phase2Env) : Nat → Nat → ℚ → List Ev × List P2Rec
  | 0, _, _ => ([], [])
  | fuel + 1, iteration, quality =>
    if quality < 95 then
      let vEv := [Ev.ask (Prompt.verifyResearch iteration)]
      match env.verifyResearch iteration with
      | none =>
        let rest := phase2QLoop env fuel (iteration + 1) 0
        (vEv ++ rest.1, ⟨iteration, none, 0⟩ :: rest.2)
      | some v =>
        let q := scoreOrZero v.score
        if q < 95 then
          match v.improvements with
          | some imps =>
            let evs := vEv ++ [Ev.notify (s!"research quality {q}, applying improvements")] ++
              improvementEvents imps
            let rest := phase2QLoop env fuel (iteration + 1) 0
            (evs ++ rest.1, ⟨iteration, some v, 0⟩ :: rest.2)
          | none =>
            let rest := phase2QLoop env fuel (iteration + 1) q
            (vEv ++ rest.1, ⟨iteration, some v, q⟩ :: rest.2)
        else
          let rest := phase2QLoop env fuel (iteration + 1) q
          (vEv ++ rest.1, ⟨iteration, some v, q⟩ :: rest.2)
    else
      ([], [])

/-- The sequential fallback (lines 191-205): for each researcher in order,
ask the agent and store `JSON.parse(result)` under that researcher's key;
a parse failure propagates out of the phase. -/
def phase2Fallback (env : Phase2Env) (planText : String) :
    List String → List Ev × Except Unit (List (String × Json))
  | [] => ([], Except.ok [])
  | r :: rs =>
    let ev := Ev.ask (Prompt.researchAs r planText)
    match env.seqResult r with
    | none => ([ev], Except.error ())
    | some j =>
      let rest := phase2Fallback env planText rs
      (ev :: rest.1,
       match rest.2 with
       | Except.ok m => Except.ok ((r, j) :: m)
       | Except.error e => Except.error e)

/-- The function `phase2_research`: save the plan, attempt the delegated path, fall back
to sequential execution when dispatch or the awaited workflow fails.  The
delegated path returns the initially collected mapping (see the module
comment: the re-collection can never land). -/
def phase2_research (env : Phase2Env) (plan : Plan2) :
    List Ev × Except Unit (List (String × Json)) :=
  let saveEv := Ev.save "plans/final-plan.json" plan.stringified
  if env.dispatchOk then
    if env.waitOk then
      let pre := [saveEv, Ev.dispatchResearch (researchersOf plan) false,
                  Ev.notify "Triggered parallel research workflow",
                  Ev.waitWorkflow "research"]
      let qres := phase2QLoop env 3 0 0
      (pre ++ qres.1, Except.ok env.collected)
    else
      let pre := [saveEv, Ev.dispatchResearch (researchersOf plan) false,
                  Ev.notify "Triggered parallel research workflow"]
      let fb := phase2Fallback env plan.stringified (researchersOf plan)
      (pre ++ fb.1, fb.2)
  else
    let fb := phase2Fallback env plan.stringified (researchersOf plan)
    ([saveEv] ++ fb.1, fb.2)

/-! ### Phase 4: development (orchestrator.js lines 262-323)

Create the project branch, save the development plan, then try to dispatch
`development.yml` and await it; on any failure there, the `catch` runs each
component sequentially (a branch-scoped agent call followed by a commit
trigger per component).  The function body contains no `return`
statement, so its value is JavaScript `undefined` on both paths — modeled
as `none` where the spec expects a result mapping. -/

/-- One entry of `devPlan.components`: the code reads `component.name` and
`component.developer`. -/
structure Component where
  name : String
  developer : Option String
deriving DecidableEq

/-- The development plan as phase 4 consumes it. -/
structure DevPlan4 where
  components : Option (List Component)
  developers : Option (List String)
  stringified : String
deriving DecidableEq

/-- JavaScript `devPlan.components || []`. -/
def componentsOf (p : DevPlan4) : List Component :=
  p.components.getD []

/-- JavaScript `devPlan.developers || []`. -/
def developersOf (p : DevPlan4) : List String :=
  p.developers.getD []

/-- JavaScript `s || d` for an optional string (the empty string is falsy
and also replaced by the default). -/
def jsOrStr (o : Option String) (d : String) : String :=
  match o with
  | some s => if s = "" then d else s
  | none => d

/-- The external oracles of phase 4. -/
structure Phase4Env where
  dispatchOk : Bool
  waitOk : Bool
deriving DecidableEq

/-- The sequential fallback of phase 4 (lines 301-321): per component in
declared order, an `implement` agent call on the branch (developer
defaulting to `fullstack-developer`) followed by a commit trigger. -/
def phase4Seq (comps : List Component) (branch : String) : List Ev :=
  comps.flatMap (fun c =>
    let n := c.name
    [Ev.askWithFiles
       (Prompt.implementComponent (jsOrStr c.developer "fullstack-developer") c.name) branch,
     Ev.commit (s!"Implement {n} component") branch])

/-- The function `phase4_development`.  The second component of the result is the
function's returned value: `none`, because the source has no `return`
statement on either path. -/
def phase4_development (env : Phase4Env) (p : DevPlan4) (branch : String) :
    List Ev × Option (List (String × Json)) :=
  let pre := [Ev.newBranch branch, Ev.save "plans/development-plan.json" p.stringified]
  if env.dispatchOk then
    let disp := [Ev.dispatchDevelopment ((componentsOf p).map Component.name) (developersOf p),
                 Ev.notify "Triggered parallel development workflow"]
    if env.waitOk then
      (pre ++ disp ++ [Ev.waitWorkflow "development"], none)
    else
      (pre ++ disp ++ phase4Seq (componentsOf p) branch, none)
  else
    (pre ++ phase4Seq (componentsOf p) branch, none)

/-- Following the spec's words for claim C5 (refinement comparison): the
phase's returned value is a result mapping whose key set equals the given
unit list. -/
def resultMappingKeyedBy (r : Option (List (String × Json))) (units : List String) : Prop :=
  ∃ m, r = some m ∧ m.map Prod.fst = units

/-! ### Webhook handling

The repository ships two webhook dispatch variants.

The plain-JavaScript serverless handler (src/unnamed/part_000 lines 58-80,
mirrored by the `initializeApp` handlers in the second half of
api/index.js, lines 95-119): its comment handler recognizes only the
substring `APPROVED` and posts a completion note; its issue-opened handler
starts processing (from phase 1) when the `claude-build` label is present.
This variant has no restart handling; `handleWebhook` below models it.

The TypeScript variant (the `src/index.ts` staged in src/README.md, which
the first half of api/index.js compiles to `dist/index.js` and loads): its
`issue_comment.created` handler (staged lines 1066-1104) first requires the
`claude-build` label, lowercases the comment body, posts approval and
closes the issue when the body contains `approved` or `lgtm`, and — in an
independent if — re-runs `processRequest(payload.issue.body || '')` on a
fresh orchestrator when the body contains `restart` or `retry`.
`handleCommentTs` below models it. -/

/-- An inbound webhook event as the plain-JS handler inspects it. -/
inductive WebhookEvent where
  | issueOpened (labels : List String) (issueNumber : Nat) (body : String)
  | issueComment (body : String)
  | other
deriving DecidableEq

/-- The action the plain-JS handler takes. -/
inductive HandlerAction where
  | startProcessing (issueNumber : Nat) (requirements : String)
  | postApprovalNote
  | noAction
deriving DecidableEq

/-- The plain-JS webhook dispatch (src/unnamed/part_000 lines 58-80):
`issues`/`opened` with the `claude-build` label starts `processRequest` on
the issue body; `issue_comment`/`created` containing `APPROVED` posts the
completion note; everything else is acknowledged without action.  This
variant ignores restart comments — the TypeScript variant below does not. -/
def handleWebhook : WebhookEvent → HandlerAction
  | WebhookEvent.issueOpened labels n body =>
    if labels.contains "claude-build" then HandlerAction.startProcessing n body
    else HandlerAction.noAction
  | WebhookEvent.issueComment body =>
    if jsIncludes body "APPROVED" then HandlerAction.postApprovalNote
    else HandlerAction.noAction
  | WebhookEvent.other => HandlerAction.noAction

/-- JavaScript `String.prototype.toLowerCase` (ASCII case folding, which is
all the handler's keywords need). -/
def jsToLower (s : String) : String :=
  String.mk (s.data.map Char.toLower)

/-- The `issue_comment.created` payload fields the TypeScript handler
reads: the issue's labels, number and body, and the comment body. -/
structure TsCommentEvent where
  labels : List String
  issueNumber : Nat
  issueBody : Option String
  commentBody : String
deriving DecidableEq

/-- An action of the TypeScript comment handler. -/
inductive TsAction where
  | approveAndClose
  | startProcessing (issueNumber : Nat) (requirements : String)
deriving DecidableEq

/-- The TypeScript `issue_comment.created` handler (src/README.md staged
lines 1066-1104): gate on the `claude-build` label, lowercase the comment;
`approved`/`lgtm` posts the approval note and closes the issue;
`restart`/`retry` re-runs `processRequest` with the issue body (the
original requirements text) as a fresh pipeline run from phase 1.  The two
ifs are independent, so both actions can fire on one comment. -/
def handleCommentTs (e : TsCommentEvent) : List TsAction :=
  if e.labels.contains "claude-build" then
    let comment := jsToLower e.commentBody
    (if jsIncludes comment "approved" || jsIncludes comment "lgtm" then
      [TsAction.approveAndClose]
    else []) ++
    (if jsIncludes comment "restart" || jsIncludes comment "retry" then
      [TsAction.startProcessing e.issueNumber (e.issueBody.getD "")]
    else [])
  else []

/-- Phase 1 of the TypeScript orchestrator (src/README.md staged lines
189-272): the identical `while (planQuality < 95 && iteration < 5)` quality
gate, with `iteration` starting at 0 on every run (so also on a restarted
run) and the score extracted from the reply or degraded to 0
(`scoreMatch ? parseInt(scoreMatch[1]) : 0`). -/
def tsPhase1_createPlan (env : Phase1Env) : String × List (IterationRec String) :=
  qualityGate env.plan env.verify 95 5 0 0 ""

/-- The per-pass artifact paths the TypeScript phase-1 loop writes (staged
lines 218-249): `plans/iteration-<i>.md` with the candidate and
`plans/verification-<i>.md` with the verifier reply.  `saveToRepo` fetches
the existing revision's sha and PUTs over it, so a restarted run rewrites
the same paths. -/
def tsPhase1IterationPaths (recs : List (IterationRec String)) : List String :=
  recs.flatMap (fun r =>
    let i := r.iteration
    [s!"plans/iteration-{i}.md", s!"plans/verification-{i}.md"])

/-! ### C1: degradation of unparsable verifier output -/

lemma qualityGate_unparsable_run {α : Type} (P : Nat → Option ℚ → α)
    (V : Nat → α → Option VerifierOutput) (h : ∀ i c, V i c = none) :
    ∀ (fuel i : Nat) (c : α),
      (qualityGate P V 95 fuel i 0 c).2.length = fuel ∧
        ∀ r ∈ (qualityGate P V 95 fuel i 0 c).2, r.quality = 0 := by
  intro fuel
  induction fuel with
  | zero => intro i c; simp [qualityGate]
  | succ n ih =>
    intro i c
    have h95 : (0 : ℚ) < 95 := by norm_num
    simp only [qualityGate, if_pos h95, h, scoreView]
    obtain ⟨hlen, hall⟩ := ih (i + 1) (P i (if i > 0 then some (0 : ℚ) else none))
    refine ⟨by simpa using hlen, ?_⟩
    intro r hr
    rcases List.mem_cons.1 hr with hr | hr
    · rw [hr]
    · exact hall r hr

lemma phase2QLoop_unparsable (env : Phase2Env) (h : ∀ i, env.verifyResearch i = none) :
    ∀ (fuel i : Nat),
      (phase2QLoop env fuel i 0).2.length = fuel ∧
        ∀ r ∈ (phase2QLoop env fuel i 0).2, r.qualityAfter = 0 := by
  intro fuel
  induction fuel with
  | zero => intro i; simp [phase2QLoop]
  | succ n ih =>
    intro i
    have h95 : (0 : ℚ) < 95 := by norm_num
    simp only [phase2QLoop, if_pos h95, h]
    obtain ⟨hlen, hall⟩ := ih (i + 1)
    refine ⟨by simpa using hlen, ?_⟩
    intro r hr
    rcases List.mem_cons.1 hr with hr | hr
    · rw [hr]
    · exact hall r hr

lemma phase3Loop_unparsable (env : Phase3Env) (h : ∀ i c, env.verify i c = none) :
    ∀ (fuel i : Nat) (c : String),
      (phase3Loop env fuel i 0 c).1 = c ∧
        (phase3Loop env fuel i 0 c).2.length = fuel ∧
        ∀ r ∈ (phase3Loop env fuel i 0 c).2, r.qualityAfter = 0 ∧ r.improvedTo = none := by
  intro fuel
  induction fuel with
  | zero => intro i c; simp [phase3Loop]
  | succ n ih =>
    intro i c
    have h95 : (0 : ℚ) < 95 := by norm_num
    simp only [phase3Loop, if_pos h95, h]
    obtain ⟨hres, hlen, hall⟩ := ih (i + 1) c
    refine ⟨hres, by simpa using hlen, ?_⟩
    intro r hr
    rcases List.mem_cons.1 hr with hr | hr
    · rw [hr]; exact ⟨rfl, rfl⟩
    · exact hall r hr

lemma collectVerifs_head_error (resp : Nat → Option VerifierOutput) (i n : Nat)
    (h : resp i = none) : collectVerifs resp i (n + 1) = Except.error () := by
  simp [collectVerifs, h]

lemma phase5Loop_enter_error (env : Phase5Env) (b : String) (fuel iteration : Nat)
    (quality : JSNum) (hlt : JSNum.ltJS quality 95 = true)
    (hc : collectVerifs (env.verify iteration) 0 3 = Except.error ()) :
    phase5Loop env b (fuel + 1) iteration quality = Except.error () := by
  simp [phase5Loop, hlt, hc]

/-- C1 (amended): an unparsable verification reply degrades to score 0 and
the loop continues, with no error escaping, in the phase-1 plan loop, the
phase-2 research-quality loop and the phase-3 development-plan loop; but in
the phase-5 verification loop an unparsable verifier reply propagates as an
error out of the loop (orchestrator.js line 347 parses without a
try/catch). -/
theorem C1_parse_failure_degrades_except_phase5 :
    (∀ (env : Phase1Env), (∀ i c, env.verify i c = none) →
       (phase1_createPlan env).2.length = 5 ∧
         ∀ r ∈ (phase1_createPlan env).2, r.quality = 0) ∧
    (∀ (env : Phase2Env) (plan : Plan2), env.dispatchOk = true → env.waitOk = true →
       (∀ i, env.verifyResearch i = none) →
       (phase2QLoop env 3 0 0).2.length = 3 ∧
         (∀ r ∈ (phase2QLoop env 3 0 0).2, r.qualityAfter = 0) ∧
         (phase2_research env plan).2 = Except.ok env.collected) ∧
    (∀ (env : Phase3Env), (∀ i c, env.verify i c = none) →
       (phase3_createDevPlan env).1 = env.initialDevPlan ∧
         (phase3_createDevPlan env).2.length = 3) ∧
    (∀ (env : Phase5Env) (b : String), env.verify 0 0 = none →
       phase5_verification env b = Except.error ()) := by
  refine ⟨?_, ?_, ?_, ?_⟩
  · intro env h
    exact qualityGate_unparsable_run env.plan env.verify h 5 0 ""
  · intro env plan hd hw h
    obtain ⟨hlen, hall⟩ := phase2QLoop_unparsable env h 3 0
    refine ⟨hlen, hall, ?_⟩
    simp [phase2_research, hd, hw]
  · intro env h
    obtain ⟨hres, hlen, _⟩ := phase3Loop_unparsable env h 3 0 env.initialDevPlan
    exact ⟨hres, hlen⟩
  · intro env b h
    exact phase5Loop_enter_error env b 4 0 (JSNum.num 0) (by decide)
      (collectVerifs_head_error (env.verify 0) 0 2 h)

/-- A phase-1 environment whose verifier replies never parse. -/
def envC1p1 : Phase1Env where
  plan := fun i _ => "p" ++ toString i
  verify := fun _ _ => none

/-- A phase-2 environment (delegated path) whose research verification
replies never parse. -/
def envC1p2 : Phase2Env where
  dispatchOk := true
  waitOk := true
  collected := [("web-technology-researcher", Json.jraw "findings")]
  recollected := fun _ => []
  verifyResearch := fun _ => none
  seqResult := fun _ => none

/-- A phase-3 environment whose verification replies never parse. -/
def envC1p3 : Phase3Env where
  initialDevPlan := "devplan-0"
  verify := fun _ _ => none
  improve := fun _ _ s => s ++ "+"

/-- A phase-5 environment whose first verifier reply does not parse. -/
def envC1p5 : Phase5Env where
  verify := fun _ _ => none

/-- Witness for C1 at concrete environments. -/
theorem C1_parse_failure_degrades_except_phase5_witness :
    (phase1_createPlan envC1p1).2.length = 5 ∧
      (phase3_createDevPlan envC1p3).1 = "devplan-0" ∧
      phase5_verification envC1p5 "project-1" = Except.error () :=
  ⟨(C1_parse_failure_degrades_except_phase5.1 envC1p1 (fun _ _ => rfl)).1,
   (C1_parse_failure_degrades_except_phase5.2.2.1 envC1p3 (fun _ _ => rfl)).1,
   C1_parse_failure_degrades_except_phase5.2.2.2 envC1p5 "project-1" rfl⟩

/-- Counterexample to C1 as stated: in the phase-5 verification loop an
unparsable verifier reply is not degraded to score 0 — it raises an error
out of the loop. -/
theorem C1_phase5_throws_counterexample :
    phase5_verification envC1p5 "project-1" = Except.error () := by
  rfl

/-! ### C5: fallback to sequential execution -/

lemma phase2Fallback_keys (env : Phase2Env) (planText : String) :
    ∀ rs : List String, (∀ r ∈ rs, (env.seqResult r).isSome) →
      ∃ m, (phase2Fallback env planText rs).2 = Except.ok m ∧ m.map Prod.fst = rs := by
  intro rs
  induction rs with
  | nil => intro _; exact ⟨[], rfl, rfl⟩
  | cons r rs ih =>
    intro h
    obtain ⟨j, hj⟩ := Option.isSome_iff_exists.1 (h r (List.mem_cons_self r rs))
    obtain ⟨m, hm, hk⟩ := ih (fun x hx => h x (List.mem_cons_of_mem r hx))
    refine ⟨(r, j) :: m, ?_, by simp [hk]⟩
    simp [phase2Fallback, hj, hm]

lemma phase4Seq_commits (b : String) :
    ∀ comps : List Component, (phase4Seq comps b).filter Ev.isCommit =
      comps.map (fun c =>
        let n := c.name
        Ev.commit (s!"Implement {n} component") b) := by
  intro comps
  induction comps with
  | nil => rfl
  | cons c cs ih =>
    simp only [phase4Seq, List.flatMap_cons] at ih ⊢
    simp [List.filter_append, List.filter_cons, Ev.isCommit, ih]

/-- C5 (amended): when the workflow dispatch fails to start, both
multi-unit phases fall back to sequential in-process execution instead of
failing the session.  The research fallback returns a mapping keyed exactly
by the unit list (when its per-unit replies parse); the development
fallback implements and commits each component in declared order, but the
phase returns no result mapping at all — its value is `none`
(`undefined`). -/
theorem C5_dispatch_failure_sequential_fallback :
    (∀ (env : Phase2Env) (plan : Plan2), env.dispatchOk = false →
       (∀ r ∈ researchersOf plan, (env.seqResult r).isSome) →
       ∃ m, (phase2_research env plan).2 = Except.ok m ∧
         m.map Prod.fst = researchersOf plan) ∧
    (∀ (env : Phase4Env) (p : DevPlan4) (b : String), env.dispatchOk = false →
       (phase4_development env p b).2 = none ∧
         ((phase4_development env p b).1).filter Ev.isCommit =
           (componentsOf p).map (fun c =>
             let n := c.name
             Ev.commit (s!"Implement {n} component") b)) := by
  constructor
  · intro env plan hd h
    obtain ⟨m, hm, hk⟩ := phase2Fallback_keys env plan.stringified (researchersOf plan) h
    refine ⟨m, ?_, hk⟩
    simp [phase2_research, hd, hm]
  · intro env p b hd
    refine ⟨by simp [phase4_development, hd], ?_⟩
    simp [phase4_development, hd, List.filter_append, Ev.isCommit, phase4Seq_commits]

/-- A concrete dispatch-failing phase-2 environment for the witness. -/
def envC5w : Phase2Env where
  dispatchOk := false
  waitOk := true
  collected := []
  recollected := fun _ => []
  verifyResearch := fun _ => none
  seqResult := fun r => some (Json.jraw ("findings of " ++ r))

/-- Witness for C5: the sequential research fallback over two researchers
yields a mapping keyed by exactly those researchers. -/
theorem C5_dispatch_failure_sequential_fallback_witness :
    ∃ m, (phase2_research envC5w ⟨some ["api-researcher", "db-researcher"], "plan"⟩).2 =
        Except.ok m ∧ m.map Prod.fst = ["api-researcher", "db-researcher"] :=
  C5_dispatch_failure_sequential_fallback.1 envC5w
    ⟨some ["api-researcher", "db-researcher"], "plan"⟩ rfl (by intro r hr; rfl)

/-- A concrete development plan with one component. -/
def planC5x : DevPlan4 :=
  ⟨some [⟨"core-api", some "backend-developer"⟩], some ["backend-developer"], "devplan"⟩

/-- Counterexample to C5 as stated: with a failing dispatcher, phase 4 runs
the sequential fallback but returns no result mapping keyed by its unit
list — the phase's value is `none`. -/
theorem C5_phase4_no_mapping_counterexample :
    ¬ resultMappingKeyedBy (phase4_development ⟨false, true⟩ planC5x "project-7").2
        ["core-api"] := by
  intro hcl
  obtain ⟨m, hm, _⟩ := hcl
  rw [show (phase4_development ⟨false, true⟩ planC5x "project-7").2 = none from rfl] at hm
  exact Option.noConfusion hm

/-! ### C6: single-researcher refinement -/

lemma improvementEvents_single (imps : List Improvement) :
    ∀ ev ∈ improvementEvents imps, ∀ rs mode,
      ev = Ev.dispatchResearch rs mode → rs.length = 1 := by
  induction imps with
  | nil => simp [improvementEvents]
  | cons imp imps ih =>
    intro ev hev rs mode heq
    simp only [improvementEvents, List.flatMap_cons] at hev
    rw [List.mem_append] at hev
    rcases hev with hev | hev
    · by_cases hc : (jsTruthyS imp.researcher && jsTruthyS imp.suggestion) = true
      · rw [if_pos hc] at hev
        simp only [List.mem_cons, List.mem_singleton, List.not_mem_nil, or_false] at hev
        rcases hev with rfl | rfl | rfl
        · exact absurd heq (by simp)
        · rw [Ev.dispatchResearch.injEq] at heq
          rw [← heq.1]
          rfl
        · exact absurd heq (by simp)
      · rw [if_neg hc] at hev
        simp at hev
    · exact ih ev hev rs mode heq

lemma phase2QLoop_dispatch_single (env : Phase2Env) :
    ∀ (fuel i : Nat) (q : ℚ), ∀ ev ∈ (phase2QLoop env fuel i q).1,
      ∀ rs mode, ev = Ev.dispatchResearch rs mode → rs.length = 1 := by
  intro fuel
  induction fuel with
  | zero => intro i q ev hev; simp [phase2QLoop] at hev
  | succ n ih =>
    intro i q ev hev rs mode heq
    by_cases h95 : q < 95
    · simp only [phase2QLoop, if_pos h95] at hev
      cases hv : env.verifyResearch i with
      | none =>
        rw [hv] at hev
        simp only [List.cons_append, List.nil_append, List.mem_cons] at hev
        rcases hev with rfl | hev
        · exact absurd heq (by simp)
        · exact ih (i + 1) 0 ev hev rs mode heq
      | some v =>
        rw [hv] at hev
        dsimp only at hev
        by_cases hq : scoreOrZero v.score < 95
        · rw [if_pos hq] at hev
          cases hi : v.improvements with
          | some imps =>
            rw [hi] at hev
            simp only [List.cons_append, List.nil_append, List.mem_cons,
              List.mem_append] at hev
            rcases hev with rfl | rfl | hev | hev
            · exact absurd heq (by simp)
            · exact absurd heq (by simp)
            · exact improvementEvents_single imps ev hev rs mode heq
            · exact ih (i + 1) 0 ev hev rs mode heq
          | none =>
            rw [hi] at hev
            simp only [List.cons_append, List.nil_append, List.mem_cons] at hev
            rcases hev with rfl | hev
            · exact absurd heq (by simp)
            · exact ih (i + 1) _ ev hev rs mode heq
        · rw [if_neg hq] at hev
          simp only [List.cons_append, List.nil_append, List.mem_cons] at hev
          rcases hev with rfl | hev
          · exact absurd heq (by simp)
          · exact ih (i + 1) _ ev hev rs mode heq
    · simp [phase2QLoop, h95] at hev

/-- C6 (amended): during research-quality refinement on the delegated path,
each improvement trigger dispatches only the single targeted researcher —
but the research result mapping returned by phase 2 is exactly the mapping
first collected: the re-collection after the triggers assigns to a `const`
binding, the thrown `TypeError` is swallowed by the parse catch (which
resets the quality to 0), and no key is ever updated. -/
theorem C6_refinement_leaves_mapping_unchanged :
    (∀ (env : Phase2Env) (plan : Plan2), env.dispatchOk = true → env.waitOk = true →
       (phase2_research env plan).2 = Except.ok env.collected) ∧
    (∀ (env : Phase2Env) (fuel i : Nat) (q : ℚ), ∀ ev ∈ (phase2QLoop env fuel i q).1,
       ∀ rs mode, ev = Ev.dispatchResearch rs mode → rs.length = 1) := by
  constructor
  · intro env plan hd hw
    simp [phase2_research, hd, hw]
  · exact phase2QLoop_dispatch_single

/-- A delegated-path phase-2 environment where the verifier requests an
improvement of researcher `r1`, whose re-run would produce a new value. -/
def envC6x : Phase2Env where
  dispatchOk := true
  waitOk := true
  collected := [("r1", Json.jstr "old"), ("r2", Json.jstr "x")]
  recollected := fun _ => [("r1", Json.jstr "new")]
  verifyResearch := fun i =>
    if i = 0 then
      some ⟨some (JSNum.num 60), none, some [⟨some "r1", some "tip"⟩], none⟩
    else
      some ⟨some (JSNum.num 96), none, none, none⟩
  seqResult := fun _ => none

/-- Witness for C6 at the concrete refinement scenario. -/
theorem C6_refinement_leaves_mapping_unchanged_witness :
    (phase2_research envC6x ⟨some ["r1", "r2"], "plan"⟩).2 = Except.ok envC6x.collected :=
  C6_refinement_leaves_mapping_unchanged.1 envC6x ⟨some ["r1", "r2"], "plan"⟩ rfl rfl

/-- Counterexample to C6 as stated: the refinement pass runs (the targeted
single-researcher workflow is dispatched) and the re-collected value for
`r1` differs from the old one, yet the mapping phase 2 returns still holds
the old value — no key was updated. -/
theorem C6_no_key_updated_counterexample :
    Ev.dispatchResearch ["r1"] true ∈ (phase2_research envC6x ⟨some ["r1", "r2"], "plan"⟩).1 ∧
      (phase2_research envC6x ⟨some ["r1", "r2"], "plan"⟩).2 =
        Except.ok [("r1", Json.jstr "old"), ("r2", Json.jstr "x")] ∧
      envC6x.recollected 0 = [("r1", Json.jstr "new")] ∧
      Json.jstr "new" ≠ Json.jstr "old" := by
  refine ⟨by decide, ?_, rfl, by decide⟩
  rfl

/-! ### C7: what feedback the produce calls receive -/

lemma phase3Loop_improve_args (env : Phase3Env) :
    ∀ (fuel i : Nat) (q : ℚ) (c : String), ∀ r ∈ (phase3Loop env fuel i q c).2,
      ∀ v, r.verification = some v → scoreOrZero v.score < 95 →
        r.improvedTo = some (env.improve r.iteration v.issues r.planBefore) := by
  intro fuel
  induction fuel with
  | zero => intro i q c r hr; simp [phase3Loop] at hr
  | succ n ih =>
    intro i q c r hr
    by_cases h95 : q < 95
    · simp only [phase3Loop, if_pos h95] at hr
      cases hv : env.verify i c with
      | none =>
        rw [hv] at hr
        dsimp only at hr
        rcases List.mem_cons.1 hr with rfl | hr
        · intro v hveq; exact absurd hveq (by simp)
        · exact ih (i + 1) 0 c r hr
      | some v0 =>
        rw [hv] at hr
        dsimp only at hr
        by_cases hq : scoreOrZero v0.score < 95
        · rw [if_pos hq] at hr
          rcases List.mem_cons.1 hr with rfl | hr
          · intro v hveq hvq
            obtain rfl : v0 = v := by
              have := hveq
              simpa using this
            rfl
          · exact ih (i + 1) _ _ r hr
        · rw [if_neg hq] at hr
          rcases List.mem_cons.1 hr with rfl | hr
          · intro v hveq hvq
            obtain rfl : v0 = v := by
              have := hveq
              simpa using this
            exact absurd hvq hq
          · exact ih (i + 1) _ c r hr
    · simp [phase3Loop, h95] at hr

lemma qualityGate_issues_irrelevant {α : Type} (P : Nat → Option ℚ → α)
    (V1 V2 : Nat → α → Option VerifierOutput) (T : ℚ)
    (h : ∀ i c, scoreView (V1 i c) = scoreView (V2 i c)) :
    ∀ (fuel i : Nat) (q : ℚ) (c : α),
      qualityGate P V1 T fuel i q c = qualityGate P V2 T fuel i q c := by
  intro fuel
  induction fuel with
  | zero => intro i q c; rfl
  | succ n ih =>
    intro i q c
    by_cases hq : q < T
    · simp only [qualityGate, if_pos hq, h, ih]
    · simp [qualityGate, hq]

/-- C7 (amended): in the phase-3 development-plan loop, whenever a verified
candidate's score is below the threshold, the next produce call receives
exactly the verifier's parsed issues list (with the current plan text); but
the phase-1 plan loop never passes the issues on — its produce feedback is
only the previous quality score, so two verifiers that agree on scores and
differ arbitrarily on issues give identical phase-1 runs. -/
theorem C7_issues_feedback_phase3_only :
    (∀ (env : Phase3Env), ∀ r ∈ (phase3_createDevPlan env).2,
       ∀ v, r.verification = some v → scoreOrZero v.score < 95 →
         r.improvedTo = some (env.improve r.iteration v.issues r.planBefore)) ∧
    (∀ (env1 env2 : Phase1Env), env1.plan = env2.plan →
       (∀ i c, scoreView (env1.verify i c) = scoreView (env2.verify i c)) →
       phase1_createPlan env1 = phase1_createPlan env2) := by
  constructor
  · intro env r hr
    exact phase3Loop_improve_args env 3 0 0 env.initialDevPlan r hr
  · intro env1 env2 hp hs
    unfold phase1_createPlan
    rw [hp]
    exact qualityGate_issues_irrelevant env2.plan env1.verify env2.verify 95 hs 5 0 0 ""

/-- A phase-3 environment whose first verification scores 40 with issue
list `["add tests"]` and whose later verifications pass. -/
def envC7 : Phase3Env where
  initialDevPlan := "dp0"
  verify := fun i _ =>
    if i = 0 then some ⟨some (JSNum.num 40), some ["add tests"], none, none⟩
    else some ⟨some (JSNum.num 96), none, none, none⟩
  improve := fun _ _ c => c ++ "!"

/-- Phase-1 environments identical except for the issues their verifier
reports. -/
def envC7p1a : Phase1Env where
  plan := fun i _ => "plan-" ++ toString i
  verify := fun i _ => some ⟨some (JSNum.num (scoresC2 i)), some ["issue-A"], none, none⟩

/-- Same scores as `envC7p1a`, different issues. -/
def envC7p1b : Phase1Env where
  plan := fun i _ => "plan-" ++ toString i
  verify := fun i _ => some ⟨some (JSNum.num (scoresC2 i)), some ["issue-B"], none, none⟩

/-- Witness for C7: the first phase-3 pass improves with exactly the parsed
issues, and the issue-insensitive phase-1 runs coincide. -/
theorem C7_issues_feedback_phase3_only_witness :
    (⟨0, "dp0", some ⟨some (JSNum.num 40), some ["add tests"], none, none⟩,
        40, some "dp0!"⟩ : P3Rec).improvedTo =
      some (envC7.improve 0 (some ["add tests"]) "dp0") ∧
    phase1_createPlan envC7p1a = phase1_createPlan envC7p1b :=
  ⟨C7_issues_feedback_phase3_only.1 envC7
      ⟨0, "dp0", some ⟨some (JSNum.num 40), some ["add tests"], none, none⟩, 40, some "dp0!"⟩
      (by decide) ⟨some (JSNum.num 40), some ["add tests"], none, none⟩ rfl (by decide),
   C7_issues_feedback_phase3_only.2 envC7p1a envC7p1b rfl (fun i c => rfl)⟩

/-- Counterexample to C7 as stated: the phase-1 verifier's issues lists
differ (`issue-A` vs `issue-B`) while the scores agree, yet the two phase-1
runs are identical — in particular every recorded produce feedback is the
previous score, never the issues list. -/
theorem C7_phase1_ignores_issues_counterexample :
    envC7p1a.verify 0 "plan-0" ≠ envC7p1b.verify 0 "plan-0" ∧
      phase1_createPlan envC7p1a = phase1_createPlan envC7p1b ∧
      (phase1_createPlan envC7p1a).2.map IterationRec.feedback =
        [none, some 40, some 60, some 80] := by
  refine ⟨by decide, by decide, by decide⟩

/-! ### C8: persistence of iteration records -/

lemma phase1Trace_saves (req : String) :
    ∀ recs : List (IterationRec String),
      (phase1Trace req recs).filter Ev.isSave =
        recs.map (fun r =>
          let i := r.iteration
          Ev.save (s!"plans/iteration-{i}.json") r.candidate) := by
  intro recs
  induction recs with
  | nil => rfl
  | cons r rs ih =>
    simp only [phase1Trace] at ih ⊢
    simp only [List.flatMap_cons, List.filter_append, List.map_cons]
    rw [ih]
    rfl

lemma phase3Pass_no_save :
    ∀ recs : List P3Rec, (recs.flatMap phase3PassEvents).filter Ev.isSave = [] := by
  intro recs
  induction recs with
  | nil => rfl
  | cons r rs ih =>
    simp only [List.flatMap_cons, List.filter_append, ih, List.append_nil, phase3PassEvents]
    cases r.improvedTo with
    | none => rfl
    | some c =>
      cases r.verification with
      | none => rfl
      | some v => rfl

lemma phase3Trace_no_save :
    ∀ recs : List P3Rec, (phase3Trace recs).filter Ev.isSave = [] := by
  intro recs
  have h := phase3Pass_no_save recs
  simp only [phase3Trace, List.filter_cons]
  simpa [Ev.isSave] using h

lemma phase5FixEvents_no_save (b : String) (it : Nat) :
    ∀ vs : List VerifierOutput, (phase5FixEvents b it vs).filter Ev.isSave = [] := by
  intro vs
  simp only [phase5FixEvents, List.filter_append]
  have h1 : ∀ ws : List VerifierOutput,
      (ws.flatMap (fun v =>
        match v.fixes with
        | some fs =>
          if fs.length > 0 then [Ev.askWithFiles (Prompt.applyFixes fs) b] else []
        | none => [])).filter Ev.isSave = [] := by
    intro ws
    induction ws with
    | nil => rfl
    | cons w ws ih =>
      simp only [List.flatMap_cons, List.filter_append, ih, List.append_nil]
      cases w.fixes with
      | none => rfl
      | some fs =>
        dsimp only
        by_cases hl : fs.length > 0
        · simp [hl, Ev.isSave]
        · simp [hl]
  rw [h1]
  simp [Ev.isSave]

lemma phase5Loop_no_save (env : Phase5Env) (b : String) :
    ∀ (fuel it : Nat) (q : JSNum) (n : Nat) (evs : List Ev),
      phase5Loop env b fuel it q = Except.ok (n, evs) → evs.filter Ev.isSave = [] := by
  intro fuel
  induction fuel with
  | zero =>
    intro it q n evs heq
    simp only [phase5Loop] at heq
    have h := Except.ok.inj heq
    have h2 : ([] : List Ev) = evs := congrArg Prod.snd h
    rw [← h2]
    rfl
  | succ m ih =>
    intro it q n evs heq
    simp only [phase5Loop] at heq
    by_cases hlt : JSNum.ltJS q 95 = true
    · rw [if_pos hlt] at heq
      cases hc : collectVerifs (env.verify it) 0 3 with
      | error e => rw [hc] at heq; exact absurd heq (by simp)
      | ok vs =>
        rw [hc] at heq
        dsimp only at heq
        cases hrec : phase5Loop env b m (it + 1) (phase5Overall vs) with
        | error e => rw [hrec] at heq; exact absurd heq (by simp)
        | ok p =>
          obtain ⟨n2, rest⟩ := p
          rw [hrec] at heq
          dsimp only at heq
          have hp := Except.ok.inj heq
          have hevs : (phase5AskEvents b ++
              (if JSNum.ltJS (phase5Overall vs) 95 = true then phase5FixEvents b it vs
               else [])) ++ rest = evs := congrArg Prod.snd hp
          rw [← hevs]
          rw [List.filter_append, List.filter_append]
          rw [ih (it + 1) (phase5Overall vs) n2 rest hrec]
          rw [show (phase5AskEvents b).filter Ev.isSave = [] from rfl]
          by_cases hq2 : JSNum.ltJS (phase5Overall vs) 95 = true
          · rw [if_pos hq2, phase5FixEvents_no_save]
            rfl
          · rw [if_neg hq2]
            rfl
    · rw [if_neg hlt] at heq
      have hp := Except.ok.inj heq
      have : ([] : List Ev) = evs := congrArg Prod.snd hp
      rw [← this]
      rfl

/-- C8 (amended): only the phase-1 loop persists a per-pass artifact — the
candidate text saved at `plans/iteration-<i>.json` before verification (so
the persisted record carries no score), with pass indices 0, 1, 2, ... in
strictly increasing order; the phase-3 and phase-5 loops write nothing to
the ContentStore. -/
theorem C8_iteration_records_phase1_only :
    (∀ (env : Phase1Env) (req : String),
       (phase1Trace req (phase1_createPlan env).2).filter Ev.isSave =
         (phase1_createPlan env).2.map (fun r =>
           let i := r.iteration
           Ev.save (s!"plans/iteration-{i}.json") r.candidate) ∧
       (phase1_createPlan env).2.map IterationRec.iteration =
         List.range' 0 (phase1_createPlan env).2.length) ∧
    (∀ env : Phase3Env, (phase3Trace (phase3_createDevPlan env).2).filter Ev.isSave = []) ∧
    (∀ (env : Phase5Env) (b : String) (n : Nat) (evs : List Ev),
       phase5_verification env b = Except.ok (n, evs) → evs.filter Ev.isSave = []) := by
  refine ⟨?_, ?_, ?_⟩
  · intro env req
    exact ⟨phase1Trace_saves req _, qualityGate_iterations env.plan env.verify 95 5 0 0 ""⟩
  · intro env
    exact phase3Trace_no_save _
  · intro env b n evs heq
    exact phase5Loop_no_save env b 5 0 (JSNum.num 0) n evs heq

/-- A phase-5 environment whose verifier replies parse but carry no
`score` field, so the first pass's mean is `NaN` and the loop ends at once
with a normal result. -/
def envC8p5 : Phase5Env where
  verify := fun _ _ => some ⟨none, none, none, none⟩

/-- Witness for C8 at concrete environments. -/
theorem C8_iteration_records_phase1_only_witness :
    ((phase1Trace "req" (phase1_createPlan envC7p1a).2).filter Ev.isSave =
       (phase1_createPlan envC7p1a).2.map (fun r =>
         let i := r.iteration
         Ev.save (s!"plans/iteration-{i}.json") r.candidate)) ∧
      ∃ n evs, phase5_verification envC8p5 "project-9" = Except.ok (n, evs) ∧
        evs.filter Ev.isSave = [] :=
  ⟨(C8_iteration_records_phase1_only.1 envC7p1a "req").1,
   ⟨1, (phase5AskEvents "project-9" ++ []) ++ [], by rfl,
    C8_iteration_records_phase1_only.2.2 envC8p5 "project-9" 1
      ((phase5AskEvents "project-9" ++ []) ++ []) (by rfl)⟩⟩

/-- Counterexample to C8 as stated: the phase-3 loop performs two passes on
this environment yet persists nothing to the ContentStore. -/
theorem C8_no_phase3_records_counterexample :
    (phase3_createDevPlan envC7).2.length = 2 ∧
      (phase3Trace (phase3_createDevPlan envC7).2).filter Ev.isSave = [] :=
  ⟨by decide, by decide⟩

/-! ### C9: external restart command -/

/-- A first run whose only pass scores 96: its single record has index 0. -/
def envC9a : Phase1Env where
  plan := fun i _ => "planA-" ++ toString i
  verify := fun _ _ => some ⟨some (JSNum.num 96), some [], none, none⟩

/-- A restarted run whose passes score 40 then 96: records at indices 0
and 1 — the index sequence begins again at 0, not after the first run. -/
def envC9b : Phase1Env where
  plan := fun i _ => "planB-" ++ toString i
  verify := fun i _ =>
    if i = 0 then some ⟨some (JSNum.num 40), some [], none, none⟩
    else some ⟨some (JSNum.num 96), some [], none, none⟩

/-- C9 (amended): in the TypeScript webhook variant (the source api/index.js
compiles and loads), a comment containing `restart` on a `claude-build`
issue re-runs `processRequest` with the issue body — the pipeline re-enters
phase 1 (Planning) with the original requirements text preserved; but the
re-entered phase-1 loop numbers its passes 0, 1, 2, ... from zero again and
first writes `plans/iteration-0.md`, the same path as the original run, so
the restarted run reuses indices and overwrites prior iteration records
instead of continuing a strictly increasing sequence.  (The plain-JS
webhook variant ignores restart comments entirely.) -/
theorem C9_restart_restarts_iteration_indices :
    (∀ e : TsCommentEvent, e.labels.contains "claude-build" = true →
       jsIncludes (jsToLower e.commentBody) "restart" = true →
       TsAction.startProcessing e.issueNumber (e.issueBody.getD "") ∈ handleCommentTs e) ∧
    (∀ env : Phase1Env,
       (tsPhase1_createPlan env).2.map IterationRec.iteration =
         List.range' 0 (tsPhase1_createPlan env).2.length) ∧
    (∀ env : Phase1Env, (tsPhase1_createPlan env).2 ≠ [] →
       (tsPhase1IterationPaths (tsPhase1_createPlan env).2).head? =
         some "plans/iteration-0.md") ∧
    (∀ (body : String) (n : Nat) (req : String),
       handleWebhook (WebhookEvent.issueComment body) ≠
         HandlerAction.startProcessing n req) := by
  refine ⟨?_, ?_, ?_, ?_⟩
  · intro e hl hr
    simp only [handleCommentTs]
    rw [if_pos hl, hr]
    simp
  · intro env
    exact qualityGate_iterations env.plan env.verify 95 5 0 0 ""
  · intro env hne
    have hmap : (tsPhase1_createPlan env).2.map IterationRec.iteration =
        List.range' 0 (tsPhase1_createPlan env).2.length :=
      qualityGate_iterations env.plan env.verify 95 5 0 0 ""
    cases hrecs : (tsPhase1_createPlan env).2 with
    | nil => exact absurd hrecs hne
    | cons r rest =>
      have hit : r.iteration = 0 := by
        rw [hrecs] at hmap
        simp only [List.map_cons, List.length_cons, List.range'_succ] at hmap
        exact (List.cons.inj hmap).1
      simp only [tsPhase1IterationPaths, List.flatMap_cons, hit]
      rfl
  · intro body n req
    by_cases h : jsIncludes body "APPROVED" = true
    · simp [handleWebhook, h]
    · simp only [handleWebhook]
      rw [if_neg (by simpa using h)]
      simp

/-- Witness for C9 at a concrete restart comment and a concrete run. -/
theorem C9_restart_restarts_iteration_indices_witness :
    TsAction.startProcessing 42 "Build a todo app" ∈
        handleCommentTs ⟨["claude-build"], 42, some "Build a todo app", "Please restart"⟩ ∧
      (tsPhase1IterationPaths (tsPhase1_createPlan envC9b).2).head? =
        some "plans/iteration-0.md" :=
  ⟨C9_restart_restarts_iteration_indices.1
      ⟨["claude-build"], 42, some "Build a todo app", "Please restart"⟩
      (by decide) (by decide),
   C9_restart_restarts_iteration_indices.2.2.1 envC9b (by decide)⟩

/-- Counterexample to C9 as stated: the restart comment does re-enter
Planning with the original issue body, but the restarted run's iteration
indices begin again at 0 — reusing the first run's index 0 — and its first
artifact path is `plans/iteration-0.md`, the very path the first run wrote,
so the prior iteration record is overwritten rather than extended by a
strictly increasing index sequence. -/
theorem C9_restart_reuses_indices_counterexample :
    TsAction.startProcessing 42 "Build a todo app" ∈
        handleCommentTs ⟨["claude-build"], 42, some "Build a todo app", "restart"⟩ ∧
      (tsPhase1_createPlan envC9a).2.map IterationRec.iteration = [0] ∧
      (tsPhase1_createPlan envC9b).2.map IterationRec.iteration = [0, 1] ∧
      (tsPhase1IterationPaths (tsPhase1_createPlan envC9a).2).head? =
        some "plans/iteration-0.md" ∧
      (tsPhase1IterationPaths (tsPhase1_createPlan envC9b).2).head? =
        some "plans/iteration-0.md" := by
  refine ⟨by decide, by decide, by decide, by decide, by decide⟩

/-! ### C10: a missing score field in phase 5 -/

lemma foldl_addJS_nan :
    ∀ vs : List VerifierOutput,
      vs.foldl (fun acc v => JSNum.addJS acc (v.score.getD JSNum.nan)) JSNum.nan =
        JSNum.nan := by
  intro vs
  induction vs with
  | nil => rfl
  | cons v vs ih =>
    rw [List.foldl_cons]
    have hstep : JSNum.addJS JSNum.nan (v.score.getD JSNum.nan) = JSNum.nan := by
      cases v.score.getD JSNum.nan <;> rfl
    rw [hstep]
    exact ih

lemma sumScoresFrom_nan :
    ∀ (vs : List VerifierOutput) (acc : JSNum), (∃ v ∈ vs, v.score = none) →
      vs.foldl (fun acc v => JSNum.addJS acc (v.score.getD JSNum.nan)) acc = JSNum.nan := by
  intro vs
  induction vs with
  | nil => intro acc h; simp at h
  | cons v vs ih =>
    intro acc h
    rw [List.foldl_cons]
    rcases h with ⟨w, hw, hscore⟩
    rcases List.mem_cons.1 hw with rfl | hw
    · have hstep : JSNum.addJS acc (w.score.getD JSNum.nan) = JSNum.nan := by
        rw [hscore]
        cases acc <;> rfl
      rw [hstep]
      exact foldl_addJS_nan vs
    · exact ih _ ⟨w, hw, hscore⟩

lemma phase5Loop_step (env : Phase5Env) (b : String) (fuel it : Nat) (q : JSNum) :
    phase5Loop env b (fuel + 1) it q =
      (if JSNum.ltJS q 95 = true then
        match collectVerifs (env.verify it) 0 3 with
        | Except.error e => Except.error e
        | Except.ok vs =>
          match phase5Loop env b fuel (it + 1) (phase5Overall vs) with
          | Except.ok (n, rest) =>
            Except.ok (n + 1,
              (phase5AskEvents b ++
                (if JSNum.ltJS (phase5Overall vs) 95 = true then phase5FixEvents b it vs
                 else [])) ++ rest)
          | Except.error e => Except.error e
      else Except.ok (0, [])) := rfl

lemma collectVerifs_cons (resp : Nat → Option VerifierOutput) (i n : Nat)
    (w : VerifierOutput) (h : resp i = some w) (rest : List VerifierOutput)
    (hrest : collectVerifs resp (i + 1) n = Except.ok rest) :
    collectVerifs resp i (n + 1) = Except.ok (w :: rest) := by
  simp only [collectVerifs, h, hrest]

/-- C10: in phase 5, when every verifier reply parses but at least one
parsed result lacks a numeric `score` field, the computed overall quality
is `NaN`, its comparison against the 95 threshold is `false`, and the phase
ends normally after that single pass applying no fixes and committing
nothing — a missing score acts as an immediate pass, not as score 0. -/
theorem C10_missing_score_passes (env : Phase5Env) (b : String)
    (w0 w1 w2 : VerifierOutput) (hv0 : env.verify 0 0 = some w0)
    (hv1 : env.verify 0 1 = some w1) (hv2 : env.verify 0 2 = some w2)
    (hmiss : w0.score = none ∨ w1.score = none ∨ w2.score = none) :
    phase5Overall [w0, w1, w2] = JSNum.nan ∧
      JSNum.ltJS (phase5Overall [w0, w1, w2]) 95 = false ∧
      phase5_verification env b = Except.ok (1, phase5AskEvents b) := by
  have hex : ∃ v ∈ [w0, w1, w2], v.score = none := by
    rcases hmiss with h | h | h
    · exact ⟨w0, by simp, h⟩
    · exact ⟨w1, by simp, h⟩
    · exact ⟨w2, by simp, h⟩
  have hnan : sumScores [w0, w1, w2] = JSNum.nan :=
    sumScoresFrom_nan [w0, w1, w2] (JSNum.num 0) hex
  have hov : phase5Overall [w0, w1, w2] = JSNum.nan := by
    simp [phase5Overall, hnan, JSNum.divNat]
  have hlt : JSNum.ltJS (phase5Overall [w0, w1, w2]) 95 = false := by
    rw [hov]; rfl
  refine ⟨hov, hlt, ?_⟩
  have hc : collectVerifs (env.verify 0) 0 3 = Except.ok [w0, w1, w2] :=
    collectVerifs_cons (env.verify 0) 0 2 w0 hv0 _
      (collectVerifs_cons (env.verify 0) 1 1 w1 hv1 _
        (collectVerifs_cons (env.verify 0) 2 0 w2 hv2 [] rfl))
  have hrec : phase5Loop env b 4 1 (phase5Overall [w0, w1, w2]) = Except.ok (0, []) := by
    rw [hov]; rfl
  show phase5Loop env b (4 + 1) 0 (JSNum.num 0) = _
  rw [phase5Loop_step]
  rw [if_pos (show JSNum.ltJS (JSNum.num 0) 95 = true by decide)]
  rw [hc]
  dsimp only
  simp only [Nat.zero_add]
  rw [hrec]
  simp [hlt]

/-- A phase-5 environment whose first verifier's parsed reply has no
`score` field while the others score 90. -/
def envC10 : Phase5Env where
  verify := fun _ j =>
    if j = 0 then some ⟨none, none, none, none⟩
    else some ⟨some (JSNum.num 90), none, none, none⟩

/-- Witness for C10 at the concrete environment. -/
theorem C10_missing_score_passes_witness :
    phase5Overall [⟨none, none, none, none⟩,
        ⟨some (JSNum.num 90), none, none, none⟩,
        ⟨some (JSNum.num 90), none, none, none⟩] = JSNum.nan ∧
      phase5_verification envC10 "project-3" = Except.ok (1, phase5AskEvents "project-3") :=
  ⟨(C10_missing_score_passes envC10 "project-3" _ _ _ rfl rfl rfl (Or.inl rfl)).1,
   (C10_missing_score_passes envC10 "project-3" _ _ _ rfl rfl rfl (Or.inl rfl)).2.2⟩

end MCPLite
